import Mathlib

/-!
Shallow embedding of the Curve Resolver of the U.S. Treasury Yield Curve
Analyzer (`src/app.py`).  The app fetches a time series of 11 Treasury
yields from FRED and, for a user-selected date, resolves the nearest
observation date on or before the request and extracts that day's
maturity/yield pairs for plotting.

Modelling choices:
* calendar dates are `Nat` (only their order matters);
* a row of the fetched DataFrame is a date together with a record
  assigning to each of the 11 maturity labels an optional rational yield
  (`none` models pandas `NaN`, an absent observation);
* the series is the list of fetched rows in chronological fetch order
  (pandas allows duplicate timestamps, hence a list, not a map);
* the resolver (lines 91-129 of `app.py`) becomes a pure function
  returning `Option ResolutionResult`, where `none` models a Python
  exception escaping the resolver and `some` a rendered outcome.
-/

namespace YieldCurveApp

/-- The 11 maturity labels of `FRED_SERIES_IDS` / `MATURITY_MAP`
(`app.py` lines 16-26). -/
inductive MaturityLabel where
  | m1Mo | m3Mo | m6Mo | y1Yr | y2Yr | y3Yr | y5Yr | y7Yr | y10Yr | y20Yr | y30Yr
deriving DecidableEq, Repr

open MaturityLabel

/-- The fixed key order of `FRED_SERIES_IDS` (`app.py` lines 16-20); after
`data.columns = [key for key in FRED_SERIES_IDS.keys()]` this is the column
order of the DataFrame. -/
def FRED_SERIES_KEYS : List MaturityLabel :=
  [m1Mo, m3Mo, m6Mo, y1Yr, y2Yr, y3Yr, y5Yr, y7Yr, y10Yr, y20Yr, y30Yr]

/-- `MATURITY_MAP` (`app.py` lines 23-26): maturity label to years. -/
def MATURITY_MAP : MaturityLabel → ℚ
  | m1Mo => 1/12
  | m3Mo => 3/12
  | m6Mo => 6/12
  | y1Yr => 1
  | y2Yr => 2
  | y3Yr => 3
  | y5Yr => 5
  | y7Yr => 7
  | y10Yr => 10
  | y20Yr => 20
  | y30Yr => 30

/-- A calendar date (only its total order matters). -/
abbrev Date := Nat

/-- One DataFrame row: the per-maturity record of a fetch timestamp;
`none` models `NaN` (absent observation). -/
abbrev YieldRecord := MaturityLabel → Option ℚ

/-- `all_yield_data`: fetched rows in chronological fetch order, each
carrying its index date. -/
abbrev YieldSeries := List (Date × YieldRecord)

/-- The outcome variants of the resolver (spec §4.2). -/
inductive ResolutionResult where
  | NoData
  | NoDateOnOrBefore (requested : Date)
  | EmptyCurve (actual : Date)
  | Curve (actual : Date) (exact : Bool) (points : List (ℚ × ℚ))
deriving DecidableEq, Repr

/-- `available_dates = all_yield_data.index.date` (`app.py` line 100). -/
def available_dates (s : YieldSeries) : List Date :=
  s.map Prod.fst

/-- `daily_data = all_yield_data.loc[str(actual_date)]`, followed by
`daily_data = daily_data.iloc[-1]` when the lookup returns a DataFrame
(duplicate timestamps): the last row in fetch order whose date equals
`d` (`app.py` lines 117-120); `none` when no row has that date (pandas
would raise a `KeyError`). -/
def daily_record (s : YieldSeries) (d : Date) : Option YieldRecord :=
  ((s.filter (fun row => row.1 = d)).getLast?).map Prod.snd

/-- `plot_data` (`app.py` lines 122-125): pair every column, in column
order, with `MATURITY_MAP` years and the row's value, then `dropna` the
rows whose yield is absent. -/
def plot_data (rec : YieldRecord) : List (ℚ × ℚ) :=
  (FRED_SERIES_KEYS.map (fun m => (MATURITY_MAP m, rec m))).filterMap
    (fun p => p.2.map (fun v => (p.1, v)))

/-- Lines 116-129 of `app.py`: given a resolved `actual` date, extract its
record, build the plot set and classify the outcome (`EmptyCurve` when
`plot_data.empty`, else `Curve`).  `none` models the `KeyError` that
`.loc` would raise for a date absent from the index. -/
def render_curve (s : YieldSeries) (actual : Date) (exact : Bool) :
    Option ResolutionResult :=
  match daily_record s actual with
  | none => none
  | some rec =>
      if plot_data rec = [] then some (.EmptyCurve actual)
      else some (.Curve actual exact (plot_data rec))

/-- The Curve Resolver (`app.py` lines 91-129): empty-data check, exact
match test, on-or-before search (`valid_dates` filter, emptiness check,
`max`), then rendering.  `none` models an exception escaping the block
(the guarded `max` on an empty collection would raise, as would `.loc`
on a missing date). -/
def resolve (s : YieldSeries) (requested : Date) : Option ResolutionResult :=
  match s with
  | [] => some .NoData
  | _ :: _ =>
      let avail := available_dates s
      if requested ∈ avail then
        render_curve s requested true
      else
        let valid := avail.filter (fun d => d ≤ requested)
        if valid = [] then some (.NoDateOnOrBefore requested)
        else
          match valid.max? with
          | none => none
          | some actual => render_curve s actual false

/-- PlotSet construction in the words of spec §4.2 step 6: for each of the
11 labels in the configured order, emit a point exactly when a value is
present, omitting absent maturities entirely. -/
def plotSetSpec (rec : YieldRecord) : List (ℚ × ℚ) :=
  FRED_SERIES_KEYS.filterMap (fun m => (rec m).map (fun v => (MATURITY_MAP m, v)))

/-- A Python `datetime.datetime`: a calendar day plus a time of day. -/
structure PyDatetime where
  day : Date
  secondsOfDay : Nat
deriving DecidableEq, Repr

/-- The value of the date widget: either a plain `datetime.date` or a
`datetime.datetime` carrying a time component. -/
inductive SelectedDate where
  | date (d : Date)
  | datetime (dt : PyDatetime)
deriving DecidableEq, Repr

/-- Lines 96-97 of `app.py`: `if isinstance(selected_date, datetime.datetime):
selected_date = selected_date.date()`. -/
def normalize_selected : SelectedDate → Date
  | .date d => d
  | .datetime dt => dt.day

/-- The resolver as entered from the widget value: normalisation of the
selected date (lines 96-97) followed by resolution (lines 99-129). -/
def resolve_selected (s : YieldSeries) (sel : SelectedDate) :
    Option ResolutionResult :=
  resolve s (normalize_selected sel)

/-- A record with every maturity populated (used to instantiate theorems). -/
def recFull : YieldRecord := fun _ => some 4

/-- A record with every maturity absent (used to instantiate theorems). -/
def recNone : YieldRecord := fun _ => none

/-! ### Helper lemmas -/

lemma mem_FRED_SERIES_KEYS (m : MaturityLabel) : m ∈ FRED_SERIES_KEYS := by
  cases m <;> simp [FRED_SERIES_KEYS]

lemma plot_data_eq_plotSetSpec (rec : YieldRecord) :
    plot_data rec = plotSetSpec rec := by
  unfold plot_data plotSetSpec
  rw [List.filterMap_map]
  rfl

lemma plot_data_eq_nil_iff (rec : YieldRecord) :
    plot_data rec = [] ↔ ∀ m, rec m = none := by
  rw [plot_data_eq_plotSetSpec]
  unfold plotSetSpec
  rw [List.filterMap_eq_nil_iff]
  constructor
  · intro h m
    simpa using h m (mem_FRED_SERIES_KEYS m)
  · intro h m _
    simp [h m]

lemma daily_record_isSome_of_mem (s : YieldSeries) (d : Date)
    (h : d ∈ available_dates s) : ∃ rec, daily_record s d = some rec := by
  unfold available_dates at h
  obtain ⟨row, hrow, hfst⟩ := List.mem_map.1 h
  have hmem : row ∈ s.filter (fun r => r.1 = d) :=
    List.mem_filter.2 ⟨hrow, by simp [hfst]⟩
  obtain ⟨last, hlast⟩ := Option.isSome_iff_exists.1
    (List.getLast?_isSome.2 (List.ne_nil_of_mem hmem))
  exact ⟨last.2, by unfold daily_record; rw [hlast]; rfl⟩

lemma render_curve_of_record {s : YieldSeries} {A : Date} {rec : YieldRecord}
    (e : Bool) (h : daily_record s A = some rec) :
    render_curve s A e =
      some (if plot_data rec = [] then .EmptyCurve A
            else .Curve A e (plot_data rec)) := by
  simp only [render_curve, h]
  split <;> simp_all

lemma resolve_of_mem {s : YieldSeries} {requested : Date}
    (h : requested ∈ available_dates s) :
    resolve s requested = render_curve s requested true := by
  cases s with
  | nil => simp [available_dates] at h
  | cons r t => simp only [resolve, if_pos h]

lemma resolve_no_candidates {s : YieldSeries} {requested : Date}
    (hs : s ≠ []) (hmem : requested ∉ available_dates s)
    (hvalid : (available_dates s).filter (fun d => d ≤ requested) = []) :
    resolve s requested = some (.NoDateOnOrBefore requested) := by
  cases s with
  | nil => exact absurd rfl hs
  | cons r t => simp only [resolve, if_neg hmem, if_pos hvalid]

lemma resolve_fallback {s : YieldSeries} {requested A : Date}
    (hmem : requested ∉ available_dates s)
    (hmax : ((available_dates s).filter (fun d => d ≤ requested)).max? = some A) :
    resolve s requested = render_curve s A false := by
  cases s with
  | nil =>
    rw [show available_dates [] = [] from rfl] at hmax
    simp at hmax
  | cons r t =>
    have hvalid : (available_dates (r :: t)).filter (fun d => d ≤ requested) ≠ [] := by
      intro hnil
      rw [hnil] at hmax
      simp at hmax
    simp only [resolve, if_neg hmem, if_neg hvalid, hmax]

lemma render_curve_curve_inv {s : YieldSeries} {A0 A : Date} {e0 e : Bool}
    {ps : List (ℚ × ℚ)}
    (h : render_curve s A0 e0 = some (.Curve A e ps)) :
    A = A0 ∧ e = e0 ∧ ∃ rec, daily_record s A0 = some rec ∧ ps = plot_data rec := by
  unfold render_curve at h
  split at h
  · exact absurd h (by simp)
  next rec heq =>
    split at h
    · simp at h
    · injection h with h
      injection h with h1 h2 h3
      exact ⟨h1.symm, h2.symm, rec, heq, h3.symm⟩

lemma resolve_curve_inv {s : YieldSeries} {requested A : Date} {e : Bool}
    {ps : List (ℚ × ℚ)}
    (h : resolve s requested = some (.Curve A e ps)) :
    ∃ rec, daily_record s A = some rec ∧ ps = plot_data rec := by
  cases s with
  | nil => simp [resolve] at h
  | cons r t =>
    simp only [resolve] at h
    split at h
    · obtain ⟨hA, _, rec, hrec, hps⟩ := render_curve_curve_inv h
      exact ⟨rec, hA ▸ hrec, hps⟩
    · split at h
      · simp at h
      · split at h
        · simp at h
        · obtain ⟨hA, _, rec, hrec, hps⟩ := render_curve_curve_inv h
          exact ⟨rec, hA ▸ hrec, hps⟩

lemma pairwise_keys :
    FRED_SERIES_KEYS.Pairwise (fun a b => MATURITY_MAP a < MATURITY_MAP b) := by
  unfold FRED_SERIES_KEYS
  norm_num [List.pairwise_cons, MATURITY_MAP]

lemma plot_data_fst (rec : YieldRecord) :
    (plot_data rec).map Prod.fst
      = FRED_SERIES_KEYS.filterMap (fun m => (rec m).map (fun _ => MATURITY_MAP m)) := by
  rw [plot_data_eq_plotSetSpec]
  unfold plotSetSpec
  rw [List.map_filterMap]
  apply List.filterMap_congr
  intro m _
  cases rec m <;> rfl

lemma plot_data_fst_pairwise (rec : YieldRecord) :
    ((plot_data rec).map Prod.fst).Pairwise (· < ·) := by
  rw [plot_data_fst, List.pairwise_filterMap]
  refine pairwise_keys.imp ?_
  intro a b hab x hx y hy
  cases ha : rec a <;> rw [ha] at hx <;> simp at hx
  cases hb : rec b <;> rw [hb] at hy <;> simp at hy
  exact hx ▸ hy ▸ hab

/-! ### Claim theorems -/

/-- C1: for a non-empty series and a requested date that is not a series
date but has at least one series date on or before it, the resolver picks
as actual date the greatest series date that is at most the requested date
and marks the curve inexact (`exact = false`); in particular, when every
series date is strictly before the requested date, the actual date is the
latest series date. -/
theorem resolve_fallback_max (s : YieldSeries) (requested d0 : Date)
    (hnotmem : requested ∉ available_dates s)
    (hd0 : d0 ∈ available_dates s) (hle : d0 ≤ requested) :
    ∃ A, A ∈ available_dates s ∧ A ≤ requested ∧
      (∀ d ∈ available_dates s, d ≤ requested → d ≤ A) ∧
      ((∀ d ∈ available_dates s, d < requested) →
        ∀ d ∈ available_dates s, d ≤ A) ∧
      (resolve s requested = some (.EmptyCurve A) ∨
        ∃ ps, resolve s requested = some (.Curve A false ps)) := by
  have hd0v : d0 ∈ (available_dates s).filter (fun d => d ≤ requested) :=
    List.mem_filter.2 ⟨hd0, by simpa using hle⟩
  cases hmax : ((available_dates s).filter (fun d => d ≤ requested)).max? with
  | none =>
    rw [List.max?_eq_none_iff] at hmax
    exact absurd hmax (List.ne_nil_of_mem hd0v)
  | some A =>
    obtain ⟨hAmem, hAub⟩ := (List.max?_eq_some_iff').1 hmax
    obtain ⟨hAavail, hAle⟩ := List.mem_filter.1 hAmem
    have hAle : A ≤ requested := by simpa using hAle
    have hres := resolve_fallback hnotmem hmax
    obtain ⟨rec, hrec⟩ := daily_record_isSome_of_mem s A hAavail
    rw [render_curve_of_record false hrec] at hres
    refine ⟨A, hAavail, hAle, ?_, ?_, ?_⟩
    · intro d hd hdle
      exact hAub d (List.mem_filter.2 ⟨hd, by simpa using hdle⟩)
    · intro hall d hd
      exact hAub d (List.mem_filter.2 ⟨hd, by simpa using Nat.le_of_lt (hall d hd)⟩)
    · by_cases hpd : plot_data rec = []
      · left
        rw [hres, if_pos hpd]
      · right
        exact ⟨plot_data rec, by rw [hres, if_neg hpd]⟩

/-- C1 witness: series with dates 10 and 20, request 15. -/
theorem resolve_fallback_max_witness :
    ((15 : Date) ∉ available_dates [((10 : Date), recFull), (20, recFull)] ∧
      (10 : Date) ∈ available_dates [((10 : Date), recFull), (20, recFull)] ∧
      (10 : Date) ≤ 15) ∧
    (∃ A, A ∈ available_dates [((10 : Date), recFull), (20, recFull)] ∧
      A ≤ 15 ∧
      (∀ d ∈ available_dates [((10 : Date), recFull), (20, recFull)],
        d ≤ 15 → d ≤ A) ∧
      ((∀ d ∈ available_dates [((10 : Date), recFull), (20, recFull)], d < 15) →
        ∀ d ∈ available_dates [((10 : Date), recFull), (20, recFull)], d ≤ A) ∧
      (resolve [((10 : Date), recFull), (20, recFull)] 15 = some (.EmptyCurve A) ∨
        ∃ ps, resolve [((10 : Date), recFull), (20, recFull)] 15 =
          some (.Curve A false ps))) :=
  ⟨⟨by decide, by decide, by decide⟩,
    resolve_fallback_max [((10 : Date), recFull), (20, recFull)] 15 10
      (by decide) (by decide) (by decide)⟩

/-- C2: for a requested date that is itself a series date, the resolver
keeps that date as the actual date and marks the curve exact: it renders
`Curve(requested, exact = true, plot set)` when some maturity is
populated, and `EmptyCurve(requested)` when every maturity is absent. -/
theorem resolve_exact_match (s : YieldSeries) (requested : Date)
    (h : requested ∈ available_dates s) :
    ∃ rec, daily_record s requested = some rec ∧
      (((∀ m, rec m = none) ∧
          resolve s requested = some (.EmptyCurve requested)) ∨
        ((∃ m v, rec m = some v) ∧
          resolve s requested = some (.Curve requested true (plot_data rec)))) := by
  obtain ⟨rec, hrec⟩ := daily_record_isSome_of_mem s requested h
  have hres := resolve_of_mem h
  rw [render_curve_of_record true hrec] at hres
  refine ⟨rec, hrec, ?_⟩
  by_cases hpd : plot_data rec = []
  · exact Or.inl ⟨(plot_data_eq_nil_iff rec).1 hpd, by rw [hres, if_pos hpd]⟩
  · refine Or.inr ⟨?_, by rw [hres, if_neg hpd]⟩
    rw [plot_data_eq_nil_iff] at hpd
    push_neg at hpd
    obtain ⟨m, hm⟩ := hpd
    exact ⟨m, (rec m).get (Option.ne_none_iff_isSome.1 hm),
      (Option.some_get (Option.ne_none_iff_isSome.1 hm)).symm⟩

/-- C2 witness: a one-row series queried at its own date. -/
theorem resolve_exact_match_witness :
    (5 : Date) ∈ available_dates [((5 : Date), recFull)] ∧
    (∃ rec, daily_record [((5 : Date), recFull)] 5 = some rec ∧
      (((∀ m, rec m = none) ∧
          resolve [((5 : Date), recFull)] 5 = some (.EmptyCurve 5)) ∨
        ((∃ m v, rec m = some v) ∧
          resolve [((5 : Date), recFull)] 5 =
            some (.Curve 5 true (plot_data rec))))) :=
  ⟨by decide, resolve_exact_match [((5 : Date), recFull)] 5 (by decide)⟩

/-- C3: for a non-empty series and a requested date strictly before every
series date, the resolver answers `NoDateOnOrBefore(requested)`; no later
series date is ever substituted. -/
theorem resolve_before_all (s : YieldSeries) (requested : Date)
    (hs : s ≠ []) (h : ∀ d ∈ available_dates s, requested < d) :
    resolve s requested = some (.NoDateOnOrBefore requested) := by
  have hmem : requested ∉ available_dates s := by
    intro hmem
    exact absurd (h requested hmem) (lt_irrefl requested)
  have hvalid : (available_dates s).filter (fun d => d ≤ requested) = [] := by
    rw [List.filter_eq_nil_iff]
    intro d hd
    simpa using Nat.not_le.2 (h d hd)
  exact resolve_no_candidates hs hmem hvalid

/-- C3 witness: earliest series date 10, request 3. -/
theorem resolve_before_all_witness :
    (([((10 : Date), recFull)] : YieldSeries) ≠ [] ∧
      ∀ d ∈ available_dates [((10 : Date), recFull)], 3 < d) ∧
    resolve [((10 : Date), recFull)] 3 = some (.NoDateOnOrBefore 3) :=
  ⟨⟨by simp, by decide⟩,
    resolve_before_all [((10 : Date), recFull)] 3 (by simp) (by decide)⟩

/-- C4: on an empty series the resolver returns `NoData` whatever the
requested date is. -/
theorem resolve_empty_series (requested : Date) :
    resolve [] requested = some .NoData := rfl

/-- C5: the plot set for a resolved date is built by iterating the 11
maturity labels in the configured fixed order, emitting a point
(years-for-label, value) exactly when the maturity is populated and
omitting it otherwise; when every maturity is absent the outcome is
`EmptyCurve(actual)`, otherwise `Curve(actual, exact, plot set)`. -/
theorem plot_build_spec (s : YieldSeries) (A : Date) (e : Bool)
    (rec : YieldRecord) (h : daily_record s A = some rec) :
    plot_data rec = FRED_SERIES_KEYS.filterMap
        (fun m => (rec m).map (fun v => (MATURITY_MAP m, v))) ∧
    ((∀ m, rec m = none) → render_curve s A e = some (.EmptyCurve A)) ∧
    ((∃ m v, rec m = some v) →
      render_curve s A e = some (.Curve A e (plot_data rec))) := by
  refine ⟨plot_data_eq_plotSetSpec rec, ?_, ?_⟩
  · intro hall
    rw [render_curve_of_record e h, if_pos ((plot_data_eq_nil_iff rec).2 hall)]
  · rintro ⟨m, v, hm⟩
    have hne : plot_data rec ≠ [] := by
      intro hnil
      have hall := (plot_data_eq_nil_iff rec).1 hnil
      rw [hall m] at hm
      exact Option.noConfusion hm
    rw [render_curve_of_record e h, if_neg hne]

/-- C5 witness: a one-row series whose record is entirely absent. -/
theorem plot_build_spec_witness :
    daily_record [((7 : Date), recNone)] 7 = some recNone ∧
    (plot_data recNone = FRED_SERIES_KEYS.filterMap
        (fun m => (recNone m).map (fun v => (MATURITY_MAP m, v))) ∧
      ((∀ m, recNone m = none) →
        render_curve [((7 : Date), recNone)] 7 false = some (.EmptyCurve 7)) ∧
      ((∃ m v, recNone m = some v) →
        render_curve [((7 : Date), recNone)] 7 false =
          some (.Curve 7 false (plot_data recNone)))) :=
  ⟨rfl, plot_build_spec [((7 : Date), recNone)] 7 false recNone rfl⟩

/-- C6: every plot set the resolver returns is strictly increasing in
maturity-years (hence contains no two points with equal maturity-years)
and draws its maturities only from the 11 configured labels. -/
theorem plotset_invariants (s : YieldSeries) (requested A : Date) (e : Bool)
    (ps : List (ℚ × ℚ)) (h : resolve s requested = some (.Curve A e ps)) :
    (ps.map Prod.fst).Pairwise (· < ·) ∧ (ps.map Prod.fst).Nodup ∧
    ∀ p ∈ ps, ∃ m ∈ FRED_SERIES_KEYS, p.1 = MATURITY_MAP m := by
  obtain ⟨rec, _, hps⟩ := resolve_curve_inv h
  subst hps
  have hpw := plot_data_fst_pairwise rec
  refine ⟨hpw, hpw.imp ne_of_lt, ?_⟩
  intro p hp
  rw [plot_data_eq_plotSetSpec] at hp
  obtain ⟨m, hm, hval⟩ := List.mem_filterMap.1 hp
  cases hrm : rec m with
  | none =>
    rw [hrm] at hval
    exact Option.noConfusion hval
  | some v =>
    rw [hrm] at hval
    refine ⟨m, hm, ?_⟩
    have : (MATURITY_MAP m, v) = p := by simpa using hval
    rw [← this]

/-- C6 witness: a fully populated one-row series queried at its date. -/
theorem plotset_invariants_witness :
    resolve [((5 : Date), recFull)] 5 = some (.Curve 5 true (plot_data recFull)) ∧
    (((plot_data recFull).map Prod.fst).Pairwise (· < ·) ∧
      ((plot_data recFull).map Prod.fst).Nodup ∧
      ∀ p ∈ plot_data recFull, ∃ m ∈ FRED_SERIES_KEYS, p.1 = MATURITY_MAP m) :=
  ⟨rfl,
    plotset_invariants [((5 : Date), recFull)] 5 5 true (plot_data recFull) rfl⟩

/-- C7: the resolver is total: for every series and requested date it
reaches one of the four result variants and never the `none` that models
an exception escaping the block; in particular the per-date record
extraction succeeds whenever the actual date is drawn from the series'
own dates. -/
theorem resolve_total (s : YieldSeries) (requested : Date) :
    ∃ r, resolve s requested = some r := by
  cases s with
  | nil => exact ⟨.NoData, rfl⟩
  | cons r t =>
    by_cases hmem : requested ∈ available_dates (r :: t)
    · obtain ⟨rec, hrec⟩ := daily_record_isSome_of_mem _ _ hmem
      rw [resolve_of_mem hmem, render_curve_of_record true hrec]
      exact ⟨_, rfl⟩
    · by_cases hvalid :
        (available_dates (r :: t)).filter (fun d => d ≤ requested) = []
      · exact ⟨_, resolve_no_candidates (List.cons_ne_nil r t) hmem hvalid⟩
      · cases hmax :
          ((available_dates (r :: t)).filter (fun d => d ≤ requested)).max? with
        | none => exact absurd (List.max?_eq_none_iff.1 hmax) hvalid
        | some A =>
          obtain ⟨hAmem, _⟩ := (List.max?_eq_some_iff').1 hmax
          obtain ⟨rec, hrec⟩ := daily_record_isSome_of_mem _ _
            (List.mem_filter.1 hAmem).1
          rw [resolve_fallback hmem hmax, render_curve_of_record false hrec]
          exact ⟨_, rfl⟩

/-- C8: when a later row is fetched for the same date, that later-indexed
row is the one the resolver uses as the date's per-maturity record:
appending a row for date `d` makes its record the one rendered when `d`
is requested. -/
theorem resolve_duplicate_last_wins (s : YieldSeries) (d : Date)
    (rec : YieldRecord) :
    resolve (s ++ [(d, rec)]) d =
      some (if plot_data rec = [] then .EmptyCurve d
            else .Curve d true (plot_data rec)) := by
  have hmem : d ∈ available_dates (s ++ [(d, rec)]) := by
    unfold available_dates
    simp
  have hrec : daily_record (s ++ [(d, rec)]) d = some rec := by
    unfold daily_record
    rw [List.filter_append, show List.filter (fun row => row.1 = d) [(d, rec)]
      = [(d, rec)] from by simp, List.getLast?_concat]
    rfl
  rw [resolve_of_mem hmem, render_curve_of_record true hrec]

/-- C9: the resolver is deterministic: two invocations with an identical
series and requested date produce identical results (the series is
read-only and the resolution mutates nothing). -/
theorem resolve_deterministic (s1 s2 : YieldSeries) (d1 d2 : Date)
    (hs : s1 = s2) (hd : d1 = d2) : resolve s1 d1 = resolve s2 d2 := by
  rw [hs, hd]

/-- C9 witness: the same concrete pair twice. -/
theorem resolve_deterministic_witness :
    (([((5 : Date), recFull)] : YieldSeries) = [((5 : Date), recFull)] ∧
      (5 : Date) = 5) ∧
    resolve [((5 : Date), recFull)] 5 = resolve [((5 : Date), recFull)] 5 :=
  ⟨⟨rfl, rfl⟩, resolve_deterministic [((5 : Date), recFull)]
    [((5 : Date), recFull)] 5 5 rfl rfl⟩

/-- C10: a selected datetime is truncated to its calendar day before any
comparison, so the resolution of a datetime equals the resolution of its
day, and two datetimes sharing a day resolve identically whatever their
times of day. -/
theorem resolve_time_insensitive (s : YieldSeries) (dt1 dt2 : PyDatetime)
    (h : dt1.day = dt2.day) :
    resolve_selected s (.datetime dt1) = resolve s dt1.day ∧
    resolve_selected s (.datetime dt1) = resolve_selected s (.datetime dt2) := by
  refine ⟨rfl, ?_⟩
  show resolve s dt1.day = resolve s dt2.day
  rw [h]

/-- C10 witness: day 3 at two different times of day. -/
theorem resolve_time_insensitive_witness :
    (PyDatetime.mk 3 100).day = (PyDatetime.mk 3 200).day ∧
    (resolve_selected [((3 : Date), recFull)] (.datetime (PyDatetime.mk 3 100)) =
        resolve [((3 : Date), recFull)] (PyDatetime.mk 3 100).day ∧
      resolve_selected [((3 : Date), recFull)] (.datetime (PyDatetime.mk 3 100)) =
        resolve_selected [((3 : Date), recFull)] (.datetime (PyDatetime.mk 3 200))) :=
  ⟨rfl, resolve_time_insensitive [((3 : Date), recFull)]
    (PyDatetime.mk 3 100) (PyDatetime.mk 3 200) rfl⟩

end YieldCurveApp
